import Mathlib

/-!
Shallow embedding of the Convex control-plane store of `vibe-board`
(`packages/backend/convex/schema.ts`, `executionProcesses.ts`,
`queuedMessages.ts`, `workspaces.ts`).

Documents live in per-table association lists keyed by `Nat` ids; the Convex
runtime guarantees freshly inserted ids are distinct from every existing id,
which we model by drawing ids from a `nextId` counter (freshness of a concrete
database state is the decidable predicate `DB.fresh`).  `Date.now()` is an
ambient clock in the source, passed here explicitly as `now`.  A Convex
mutation is transactional: a thrown error aborts every write it performed, so
a fallible handler is modelled as `Except String (DB × result)` whose `error`
case leaves the database unchanged.  `ctx.db.patch` on a missing document
throws, so handlers check that every patch target exists before writing.
-/

/-- `executionStatus` validator of `schema.ts`. -/
inductive ExecutionStatus
  | pending
  | running
  | completed
  | failed
  | killed
  | dropped
deriving DecidableEq

/-- `sessionStatus` / `workspaceStatus` validator of `schema.ts` (identical carriers). -/
inductive SessionStatus
  | running
  | idle
  | needs_attention
  | error
deriving DecidableEq

/-- `executionRunReason` validator of `schema.ts`. -/
inductive ExecutionRunReason
  | setup
  | coding_agent
  | cleanup
  | archive
  | dev_server
  | review
  | system
deriving DecidableEq

/-- `queueState` validator of `schema.ts` / `queuedMessages.ts`. -/
inductive QueueState
  | queued
  | consumed
  | discarded
deriving DecidableEq

/-- `workspaces` table row (`schema.ts`). -/
structure Workspace where
  ownerUserId : String
  organizationId : Option String
  projectId : Option String
  name : String
  branch : String
  status : SessionStatus
  archived : Bool
  pinned : Bool
  activeSessionId : Option Nat
  activeWorkspaceRepoId : Option Nat
  createdAt : Nat
  updatedAt : Nat
deriving DecidableEq

/-- `workspaceRepos` table row (`schema.ts`). -/
structure WorkspaceRepo where
  workspaceId : Nat
  repoId : String
  repoName : String
  targetBranch : String
  enabled : Bool
  sortOrder : Nat
  createdAt : Nat
  updatedAt : Nat
deriving DecidableEq

/-- `sessions` table row (`schema.ts`). -/
structure Session where
  workspaceId : Nat
  title : Option String
  status : SessionStatus
  lastUsedAt : Nat
  createdAt : Nat
  updatedAt : Nat
deriving DecidableEq

/-- `executionProcesses` table row (`schema.ts`). -/
structure ExecutionProcess where
  workspaceId : Nat
  sessionId : Nat
  runReason : ExecutionRunReason
  status : ExecutionStatus
  executor : Option String
  queuedFollowUpConsumed : Bool
  startedAt : Nat
  completedAt : Option Nat
  errorMessage : Option String
  createdAt : Nat
  updatedAt : Nat
deriving DecidableEq

/-- `executionProcessRepoStates` table row (`schema.ts`). -/
structure ExecutionProcessRepoState where
  executionProcessId : Nat
  workspaceRepoId : Nat
  beforeHeadCommit : Option String
  afterHeadCommit : Option String
  repoState : Option String
  createdAt : Nat
  updatedAt : Nat
deriving DecidableEq

/-- `queuedMessages` table row (`schema.ts`). -/
structure QueuedMessage where
  sessionId : Nat
  message : String
  executor : Option String
  variant : Option String
  state : QueueState
  enqueueingProcessId : Option Nat
  queuedAt : Nat
  consumedAt : Option Nat
  discardedAt : Option Nat
  createdAt : Nat
  updatedAt : Nat
deriving DecidableEq

/-- The whole store: one association list per table plus the id supply. -/
structure DB where
  workspaces : List (Nat × Workspace)
  workspaceRepos : List (Nat × WorkspaceRepo)
  sessions : List (Nat × Session)
  executionProcesses : List (Nat × ExecutionProcess)
  executionProcessRepoStates : List (Nat × ExecutionProcessRepoState)
  queuedMessages : List (Nat × QueuedMessage)
  nextId : Nat
deriving DecidableEq

/-- `ctx.db.get`: first row with the given id. -/
def lookupRow {α : Type} : List (Nat × α) → Nat → Option α
  | [], _ => none
  | r :: rest, i => if r.1 = i then some r.2 else lookupRow rest i

/-- `ctx.db.patch`: rewrite the row with the given id in place (Convex merges
the supplied fields into the document; `f` is that merge). -/
def patchRow {α : Type} (rows : List (Nat × α)) (i : Nat) (f : α → α) :
    List (Nat × α) :=
  rows.map (fun r => if r.1 = i then (r.1, f r.2) else r)

/-- JavaScript `a ?? b` on possibly-undefined values. -/
def coalesce {α : Type} : Option α → Option α → Option α
  | some v, _ => some v
  | none, b => b

/-- Every id stored in the table is older than the id supply: the model of
Convex's guarantee that a fresh id collides with no existing document. -/
def rowsFresh {α : Type} (rows : List (Nat × α)) (n : Nat) : Bool :=
  rows.all (fun r => r.1 < n)

/-- Freshness of the whole store. -/
def DB.fresh (db : DB) : Bool :=
  rowsFresh db.workspaces db.nextId &&
    rowsFresh db.workspaceRepos db.nextId &&
    rowsFresh db.sessions db.nextId &&
    rowsFresh db.executionProcesses db.nextId &&
    rowsFresh db.executionProcessRepoStates db.nextId &&
    rowsFresh db.queuedMessages db.nextId

/-- `mapExecutionToSessionStatus` (`executionProcesses.ts`, lines 30-40). -/
def mapExecutionToSessionStatus (status : ExecutionStatus) : SessionStatus :=
  if status = ExecutionStatus.pending ∨ status = ExecutionStatus.running then
    SessionStatus.running
  else if status = ExecutionStatus.failed ∨ status = ExecutionStatus.killed then
    SessionStatus.needs_attention
  else
    SessionStatus.idle

/-- The `terminal` test of `setExecutionStatus` (`executionProcesses.ts`,
lines 114-118). -/
def isTerminalStatus (status : ExecutionStatus) : Bool :=
  status = ExecutionStatus.completed ∨
    status = ExecutionStatus.failed ∨
    status = ExecutionStatus.killed ∨
    status = ExecutionStatus.dropped

/-- Return object of `startExecution`. -/
structure StartExecutionResult where
  executionProcessId : Nat
  startedAt : Nat
deriving DecidableEq

/-- `startExecution` (`executionProcesses.ts`, lines 42-93). -/
def startExecution (db : DB) (workspaceId sessionId : Nat)
    (runReason : ExecutionRunReason) (executor : Option String) (now : Nat) :
    Except String (DB × StartExecutionResult) :=
  match lookupRow db.workspaces workspaceId with
  | none => .error ("Workspace not found")
  | some _ =>
    match lookupRow db.sessions sessionId with
    | none => .error ("Session not found")
    | some _ =>
      let executionProcessId := db.nextId
      let row : ExecutionProcess :=
        { workspaceId := workspaceId
          sessionId := sessionId
          runReason := runReason
          status := ExecutionStatus.running
          executor := executor
          queuedFollowUpConsumed := false
          startedAt := now
          completedAt := none
          errorMessage := none
          createdAt := now
          updatedAt := now }
      .ok
        ({ db with
            executionProcesses := db.executionProcesses ++ [(executionProcessId, row)]
            sessions := patchRow db.sessions sessionId (fun s =>
              { s with status := SessionStatus.running, lastUsedAt := now, updatedAt := now })
            workspaces := patchRow db.workspaces workspaceId (fun w =>
              { w with status := SessionStatus.running,
                       activeSessionId := some sessionId, updatedAt := now })
            nextId := db.nextId + 1 },
         { executionProcessId := executionProcessId, startedAt := now })

/-- Return object of `setExecutionStatus`. -/
structure SetExecutionStatusResult where
  executionProcessId : Nat
  status : ExecutionStatus
  sessionStatus : SessionStatus
  updatedAt : Nat
deriving DecidableEq

/-- `setExecutionStatus` (`executionProcesses.ts`, lines 95-144).  The source
patches the execution, then its session, then its workspace; `ctx.db.patch`
throws on a missing document and aborts the transaction, so the model checks
the two patch targets up front (observationally equivalent under
transactional rollback). -/
def setExecutionStatus (db : DB) (executionProcessId : Nat)
    (status : ExecutionStatus) (errorMessage : Option String) (now : Nat) :
    Except String (DB × SetExecutionStatusResult) :=
  match lookupRow db.executionProcesses executionProcessId with
  | none => .error ("Execution process not found")
  | some process =>
    if (lookupRow db.sessions process.sessionId).isSome &&
        (lookupRow db.workspaces process.workspaceId).isSome then
      let terminal := isTerminalStatus status
      let mappedSessionStatus := mapExecutionToSessionStatus status
      .ok
        ({ db with
            executionProcesses := patchRow db.executionProcesses executionProcessId (fun p =>
              { p with status := status
                       errorMessage := errorMessage
                       completedAt := if terminal then some now else process.completedAt
                       updatedAt := now })
            sessions := patchRow db.sessions process.sessionId (fun s =>
              { s with status := mappedSessionStatus, lastUsedAt := now, updatedAt := now })
            workspaces := patchRow db.workspaces process.workspaceId (fun w =>
              { w with status := mappedSessionStatus, updatedAt := now }) },
         { executionProcessId := executionProcessId
           status := status
           sessionStatus := mappedSessionStatus
           updatedAt := now })
    else
      .error ("Patch target not found")

/-- Rows of the `by_session_id_and_state_and_queued_at` index range
`eq('sessionId', sid).eq('state', 'queued')` (`queuedMessages.ts`). -/
def queuedRows (rows : List (Nat × QueuedMessage)) (sessionId : Nat) :
    List (Nat × QueuedMessage) :=
  rows.filter (fun r =>
    r.2.sessionId = sessionId ∧ r.2.state = QueueState.queued)

/-- The index orders the range by the trailing `queuedAt` column, ties broken
by creation order (modelled by the id); `r` beats `best` when it is strictly
later in that order. -/
def newerQueued (best r : Nat × QueuedMessage) : Bool :=
  best.2.queuedAt < r.2.queuedAt ∨
    (best.2.queuedAt = r.2.queuedAt ∧ best.1 < r.1)

/-- The element `.order('desc').first()` returns: the maximum of the range in
the index order, `none` on an empty range. -/
def selectLatest {α : Type} (newer : α → α → Bool) :
    List α → Option α → Option α
  | [], acc => acc
  | r :: rest, acc =>
    match acc with
    | none => selectLatest newer rest (some r)
    | some best =>
      selectLatest newer rest (if newer best r then some r else some best)

/-- `.withIndex(...).order('desc').first()` over the queued range of a
session. -/
def findQueuedDesc (rows : List (Nat × QueuedMessage)) (sessionId : Nat) :
    Option (Nat × QueuedMessage) :=
  selectLatest newerQueued (queuedRows rows sessionId) none

/-- Number of `state = queued` rows of a session. -/
def queuedCount (db : DB) (sessionId : Nat) : Nat :=
  (queuedRows db.queuedMessages sessionId).length

/-- Return object of `enqueueFollowUp`. -/
structure EnqueueResult where
  queuedMessageId : Nat
  queuedAt : Nat
  state : QueueState
deriving DecidableEq

/-- `enqueueFollowUp` (`queuedMessages.ts`, lines 34-93). -/
def enqueueFollowUp (db : DB) (sessionId : Nat) (message : String)
    (executor variant : Option String) (enqueueingProcessId : Option Nat)
    (now : Nat) : DB × EnqueueResult :=
  match findQueuedDesc db.queuedMessages sessionId with
  | some existing =>
    ({ db with
        queuedMessages := patchRow db.queuedMessages existing.1 (fun m =>
          { m with message := message
                   executor := executor
                   variant := variant
                   enqueueingProcessId := enqueueingProcessId
                   queuedAt := now
                   updatedAt := now }) },
     { queuedMessageId := existing.1, queuedAt := now, state := QueueState.queued })
  | none =>
    let queuedMessageId := db.nextId
    let row : QueuedMessage :=
      { sessionId := sessionId
        message := message
        executor := executor
        variant := variant
        state := QueueState.queued
        enqueueingProcessId := enqueueingProcessId
        queuedAt := now
        consumedAt := none
        discardedAt := none
        createdAt := now
        updatedAt := now }
    ({ db with
        queuedMessages := db.queuedMessages ++ [(queuedMessageId, row)]
        nextId := db.nextId + 1 },
     { queuedMessageId := queuedMessageId, queuedAt := now, state := QueueState.queued })

/-- Return object of `getQueueStatus` / `consumeQueuedMessage` /
`discardQueuedMessage` (`queueStatusValidator` in `queuedMessages.ts`). -/
inductive QueueStatusResult
  | empty
  | queued (queuedMessageId : Nat) (message : String)
      (executor variant : Option String) (queuedAt : Nat)
      (enqueueingProcessId : Option Nat)
  | consumed (queuedMessageId : Nat) (message : String)
      (executor variant : Option String) (queuedAt : Nat)
      (enqueueingProcessId : Option Nat)
deriving DecidableEq

/-- `getQueueStatus` (`queuedMessages.ts`, lines 95-125). -/
def getQueueStatus (db : DB) (sessionId : Nat) : QueueStatusResult :=
  match findQueuedDesc db.queuedMessages sessionId with
  | none => QueueStatusResult.empty
  | some queued =>
    QueueStatusResult.queued queued.1 queued.2.message queued.2.executor
      queued.2.variant queued.2.queuedAt queued.2.enqueueingProcessId

/-- `consumeQueuedMessage` (`queuedMessages.ts`, lines 127-164). -/
def consumeQueuedMessage (db : DB) (sessionId : Nat) (now : Nat) :
    DB × QueueStatusResult :=
  match findQueuedDesc db.queuedMessages sessionId with
  | none => (db, QueueStatusResult.empty)
  | some queued =>
    ({ db with
        queuedMessages := patchRow db.queuedMessages queued.1 (fun m =>
          { m with state := QueueState.consumed
                   consumedAt := some now
                   updatedAt := now }) },
     QueueStatusResult.consumed queued.1 queued.2.message queued.2.executor
       queued.2.variant queued.2.queuedAt queued.2.enqueueingProcessId)

/-- `discardQueuedMessage` (`queuedMessages.ts`, lines 166-197). -/
def discardQueuedMessage (db : DB) (sessionId : Nat) (now : Nat) :
    DB × QueueStatusResult :=
  match findQueuedDesc db.queuedMessages sessionId with
  | none => (db, QueueStatusResult.empty)
  | some queued =>
    ({ db with
        queuedMessages := patchRow db.queuedMessages queued.1 (fun m =>
          { m with state := QueueState.discarded
                   discardedAt := some now
                   updatedAt := now }) },
     QueueStatusResult.empty)

/-- One call of the three queue mutations, for reasoning about arbitrary
sequences of calls (C4). -/
inductive QueueOp
  | enqueue (sessionId : Nat) (message : String)
      (executor variant : Option String) (enqueueingProcessId : Option Nat)
      (now : Nat)
  | consume (sessionId : Nat) (now : Nat)
  | discard (sessionId : Nat) (now : Nat)

/-- Apply one queue mutation to the store (all three are total). -/
def applyQueueOp (db : DB) : QueueOp → DB
  | QueueOp.enqueue sessionId message executor variant enqueueingProcessId now =>
    (enqueueFollowUp db sessionId message executor variant enqueueingProcessId now).1
  | QueueOp.consume sessionId now => (consumeQueuedMessage db sessionId now).1
  | QueueOp.discard sessionId now => (discardQueuedMessage db sessionId now).1

/-- Element of the `repos` argument of `createWorkspace`
(`workspaceInputValidator` in `workspaces.ts`). -/
structure RepoInput where
  repoId : String
  repoName : String
  targetBranch : String
  enabled : Option Bool
  sortOrder : Option Nat
deriving DecidableEq

/-- The `for (const [index, repo] of args.repos.entries())` insertion loop of
`createWorkspace` (`workspaces.ts`, lines 57-69); returns the inserted ids in
order. -/
def insertWorkspaceRepos (db : DB) (workspaceId : Nat) (repos : List RepoInput)
    (now : Nat) (index : Nat) : DB × List Nat :=
  match repos with
  | [] => (db, [])
  | repo :: rest =>
    let workspaceRepoId := db.nextId
    let row : WorkspaceRepo :=
      { workspaceId := workspaceId
        repoId := repo.repoId
        repoName := repo.repoName
        targetBranch := repo.targetBranch
        enabled := repo.enabled.getD true
        sortOrder := repo.sortOrder.getD index
        createdAt := now
        updatedAt := now }
    let db1 : DB :=
      { db with
          workspaceRepos := db.workspaceRepos ++ [(workspaceRepoId, row)]
          nextId := db.nextId + 1 }
    let rec_result := insertWorkspaceRepos db1 workspaceId rest now (index + 1)
    (rec_result.1, workspaceRepoId :: rec_result.2)

/-- Return object of `createWorkspace`. -/
structure CreateWorkspaceResult where
  workspaceId : Nat
  sessionId : Nat
  workspaceRepoIds : List Nat
deriving DecidableEq

/-- `createWorkspace` (`workspaces.ts`, lines 20-92). -/
def createWorkspace (db : DB) (ownerUserId : String)
    (organizationId projectId : Option String) (name branch : String)
    (repos : List RepoInput) (initialSessionTitle : Option String) (now : Nat) :
    Except String (DB × CreateWorkspaceResult) :=
  if repos.length = 0 then
    .error ("Workspace must include at least one repository")
  else
    let workspaceId := db.nextId
    let workspaceRow : Workspace :=
      { ownerUserId := ownerUserId
        organizationId := organizationId
        projectId := projectId
        name := name
        branch := branch
        status := SessionStatus.idle
        archived := false
        pinned := false
        activeSessionId := none
        activeWorkspaceRepoId := none
        createdAt := now
        updatedAt := now }
    let db1 : DB :=
      { db with
          workspaces := db.workspaces ++ [(workspaceId, workspaceRow)]
          nextId := db.nextId + 1 }
    let inserted := insertWorkspaceRepos db1 workspaceId repos now 0
    let db2 := inserted.1
    let workspaceRepoIds := inserted.2
    let sessionId := db2.nextId
    let sessionRow : Session :=
      { workspaceId := workspaceId
        title := initialSessionTitle
        status := SessionStatus.idle
        lastUsedAt := now
        createdAt := now
        updatedAt := now }
    let db3 : DB :=
      { db2 with
          sessions := db2.sessions ++ [(sessionId, sessionRow)]
          nextId := db2.nextId + 1 }
    let db4 : DB :=
      { db3 with
          workspaces := patchRow db3.workspaces workspaceId (fun w =>
            { w with activeSessionId := some sessionId
                     activeWorkspaceRepoId := workspaceRepoIds.head?
                     updatedAt := now }) }
    .ok
      (db4,
       { workspaceId := workspaceId, sessionId := sessionId
         workspaceRepoIds := workspaceRepoIds })

/-- Rows of the `by_execution_process_id_and_workspace_repo_id` index range of
one (execution, workspaceRepo) pair (`executionProcesses.ts`). -/
def repoStateRows (rows : List (Nat × ExecutionProcessRepoState))
    (executionProcessId workspaceRepoId : Nat) :
    List (Nat × ExecutionProcessRepoState) :=
  rows.filter (fun r =>
    r.2.executionProcessId = executionProcessId ∧
      r.2.workspaceRepoId = workspaceRepoId)

/-- Number of rows stored for one (execution, workspaceRepo) pair. -/
def pairCount (db : DB) (executionProcessId workspaceRepoId : Nat) : Nat :=
  (repoStateRows db.executionProcessRepoStates executionProcessId workspaceRepoId).length

/-- Return object of `upsertExecutionRepoState`. -/
structure UpsertRepoStateResult where
  executionProcessRepoStateId : Nat
  updatedAt : Nat
deriving DecidableEq

/-- `upsertExecutionRepoState` (`executionProcesses.ts`, lines 226-280).
`.unique()` returns the sole row of the index range, `null` when the range is
empty, and throws when it holds more than one row. -/
def upsertExecutionRepoState (db : DB) (executionProcessId workspaceRepoId : Nat)
    (beforeHeadCommit afterHeadCommit repoState : Option String) (now : Nat) :
    Except String (DB × UpsertRepoStateResult) :=
  match repoStateRows db.executionProcessRepoStates executionProcessId workspaceRepoId with
  | [existing] =>
    .ok
      ({ db with
          executionProcessRepoStates :=
            patchRow db.executionProcessRepoStates existing.1 (fun r =>
              { r with
                  beforeHeadCommit := coalesce beforeHeadCommit existing.2.beforeHeadCommit
                  afterHeadCommit := coalesce afterHeadCommit existing.2.afterHeadCommit
                  repoState := coalesce repoState existing.2.repoState
                  updatedAt := now }) },
       { executionProcessRepoStateId := existing.1, updatedAt := now })
  | [] =>
    let executionProcessRepoStateId := db.nextId
    let row : ExecutionProcessRepoState :=
      { executionProcessId := executionProcessId
        workspaceRepoId := workspaceRepoId
        beforeHeadCommit := beforeHeadCommit
        afterHeadCommit := afterHeadCommit
        repoState := repoState
        createdAt := now
        updatedAt := now }
    .ok
      ({ db with
          executionProcessRepoStates :=
            db.executionProcessRepoStates ++ [(executionProcessRepoStateId, row)]
          nextId := db.nextId + 1 },
       { executionProcessRepoStateId := executionProcessRepoStateId, updatedAt := now })
  | _ => .error ("unique() found more than one row")

/-- Sample workspace document used by concrete test states. -/
def wsSample : Workspace :=
  { ownerUserId := "", organizationId := none, projectId := none, name := "",
    branch := "", status := SessionStatus.idle, archived := false,
    pinned := false, activeSessionId := some 1, activeWorkspaceRepoId := none,
    createdAt := 0, updatedAt := 0 }

/-- Sample session document used by concrete test states. -/
def sessSample : Session :=
  { workspaceId := 0, title := none, status := SessionStatus.idle,
    lastUsedAt := 0, createdAt := 0, updatedAt := 0 }

/-- Sample execution document in the non-terminal `running` status. -/
def execRunningSample : ExecutionProcess :=
  { workspaceId := 0, sessionId := 1, runReason := ExecutionRunReason.coding_agent,
    status := ExecutionStatus.running, executor := none,
    queuedFollowUpConsumed := false, startedAt := 0, completedAt := none,
    errorMessage := none, createdAt := 0, updatedAt := 0 }

/-- Sample execution document already in the terminal `completed` status. -/
def execCompletedSample : ExecutionProcess :=
  { execRunningSample with status := ExecutionStatus.completed, completedAt := some 1 }

/-- A store with one workspace (id 0), one session (id 1) and one running
execution (id 2). -/
def dbRunning : DB :=
  { workspaces := [(0, wsSample)], workspaceRepos := [],
    sessions := [(1, sessSample)], executionProcesses := [(2, execRunningSample)],
    executionProcessRepoStates := [], queuedMessages := [], nextId := 3 }

/-- A store whose execution 2 is already terminal (`completed`). -/
def dbTerminal : DB :=
  { dbRunning with executionProcesses := [(2, execCompletedSample)] }

/-- The empty store. -/
def dbEmpty : DB :=
  { workspaces := [], workspaceRepos := [], sessions := [],
    executionProcesses := [], executionProcessRepoStates := [],
    queuedMessages := [], nextId := 0 }

/-- A store whose workspace 0 currently has a different active session (id 9)
than the session 1 an execution will be started in. -/
def dbOtherActive : DB :=
  { dbRunning with workspaces := [(0, { wsSample with activeSessionId := some 9 })] }

/-- The store after reporting `completed` on execution 2 of `dbRunning` at
time 1. -/
def dbC3a : DB :=
  match setExecutionStatus dbRunning 2 ExecutionStatus.completed none 1 with
  | Except.ok x => x.1
  | Except.error _ => dbRunning

/-- The store after repeating the identical `completed` report at time 2. -/
def dbC3b : DB :=
  match setExecutionStatus dbC3a 2 ExecutionStatus.completed none 2 with
  | Except.ok x => x.1
  | Except.error _ => dbC3a

/-- The store after reporting the non-terminal `running` on the already
terminal execution 2 of `dbTerminal` at time 5. -/
def dbC2 : DB :=
  match setExecutionStatus dbTerminal 2 ExecutionStatus.running none 5 with
  | Except.ok x => x.1
  | Except.error _ => dbTerminal

/-- A store holding a single queued message (id 4) for session 1. -/
def queuedMsgSample : QueuedMessage :=
  { sessionId := 1, message := ("old"), executor := none, variant := none,
    state := QueueState.queued, enqueueingProcessId := none, queuedAt := 0,
    consumedAt := none, discardedAt := none, createdAt := 0, updatedAt := 0 }

/-- A store with one queued row for session 1. -/
def dbQueued : DB :=
  { dbEmpty with queuedMessages := [(4, queuedMsgSample)], nextId := 5 }

/-- Sample repo-state row: execution 2, workspaceRepo 3, with a stored
beforeHeadCommit and no afterHeadCommit. -/
def repoStateSample : ExecutionProcessRepoState :=
  { executionProcessId := 2, workspaceRepoId := 3,
    beforeHeadCommit := some ("aaa"), afterHeadCommit := none,
    repoState := none, createdAt := 0, updatedAt := 0 }

/-- A store holding exactly one repo-state row (id 6) for the pair (2, 3). -/
def dbRepoState : DB :=
  { dbEmpty with executionProcessRepoStates := [(6, repoStateSample)], nextId := 7 }

theorem coalesce_self {α : Type} (a : Option α) : coalesce a a = a := by
  cases a <;> rfl

theorem coalesce_idem {α : Type} (a b : Option α) :
    coalesce a (coalesce a b) = coalesce a b := by
  cases a <;> rfl

theorem lookupRow_patchRow_self {α : Type} (rows : List (Nat × α)) (i : Nat)
    (f : α → α) :
    lookupRow (patchRow rows i f) i = (lookupRow rows i).map f := by
  induction rows with
  | nil => rfl
  | cons r rest ih =>
    by_cases h : r.1 = i
    · simp [patchRow, lookupRow, h]
    · simp only [patchRow, List.map] at ih ⊢
      simp [lookupRow, h, ih]

theorem lookupRow_patchRow_ne {α : Type} (rows : List (Nat × α)) (i j : Nat)
    (f : α → α) (h : j ≠ i) :
    lookupRow (patchRow rows i f) j = lookupRow rows j := by
  induction rows with
  | nil => rfl
  | cons r rest ih =>
    by_cases hr : r.1 = i
    · have hrj : r.1 ≠ j := by rw [hr]; exact fun hc => h hc.symm
      simp only [patchRow, List.map] at ih ⊢
      simp [lookupRow, hr, hrj, ih, Ne.symm h]
    · by_cases hj : r.1 = j
      · simp [patchRow, lookupRow, hr, hj, h]
      · simp only [patchRow, List.map] at ih ⊢
        simp [lookupRow, hr, hj, ih]

theorem lookupRow_append {α : Type} (l1 l2 : List (Nat × α)) (i : Nat) :
    lookupRow (l1 ++ l2) i = coalesce (lookupRow l1 i) (lookupRow l2 i) := by
  induction l1 with
  | nil => rfl
  | cons r rest ih =>
    by_cases h : r.1 = i
    · simp [lookupRow, h, coalesce]
    · simp [lookupRow, h, ih]

theorem patchRow_length {α : Type} (rows : List (Nat × α)) (i : Nat) (f : α → α) :
    (patchRow rows i f).length = rows.length := by
  simp [patchRow]

theorem lookupRow_eq_none_of_rowsFresh {α : Type} (rows : List (Nat × α))
    (n : Nat) (h : rowsFresh rows n = true) : lookupRow rows n = none := by
  induction rows with
  | nil => rfl
  | cons r rest ih =>
    simp only [rowsFresh, List.all_cons, Bool.and_eq_true, decide_eq_true_eq] at h
    have hne : r.1 ≠ n := Nat.ne_of_lt h.1
    simp [lookupRow, hne, ih h.2]

theorem rowsFresh_mono {α : Type} (rows : List (Nat × α)) (n m : Nat)
    (h : rowsFresh rows n = true) (hle : n ≤ m) : rowsFresh rows m = true := by
  induction rows with
  | nil => rfl
  | cons r rest ih =>
    simp only [rowsFresh, List.all_cons, Bool.and_eq_true, decide_eq_true_eq] at h ⊢
    exact ⟨Nat.lt_of_lt_of_le h.1 hle, ih h.2⟩

theorem filter_patchRow {α : Type} (rows : List (Nat × α)) (i : Nat) (f : α → α)
    (p : Nat × α → Bool) (hp : ∀ k (v : α), p (k, f v) = p (k, v)) :
    (patchRow rows i f).filter p =
      (rows.filter p).map (fun r => if r.1 = i then (r.1, f r.2) else r) := by
  induction rows with
  | nil => rfl
  | cons r rest ih =>
    have hg : p (if r.1 = i then (r.1, f r.2) else r) = p r := by
      by_cases h1 : r.1 = i
      · rw [if_pos h1, hp r.1 r.2, Prod.mk.eta]
      · rw [if_neg h1]
    simp only [patchRow, List.map] at ih ⊢
    rw [List.filter_cons, List.filter_cons, hg]
    by_cases h2 : p r = true
    · simp [h2, ih]
    · simp only [Bool.not_eq_true] at h2
      simp [h2, ih]

theorem length_filter_patchRow_le {α : Type} (rows : List (Nat × α)) (i : Nat)
    (f : α → α) (p : Nat × α → Bool)
    (hp : ∀ k (v : α), p (k, f v) = true → p (k, v) = true) :
    ((patchRow rows i f).filter p).length ≤ (rows.filter p).length := by
  induction rows with
  | nil => exact Nat.le_refl 0
  | cons r rest ih =>
    have hg : p (if r.1 = i then (r.1, f r.2) else r) = true → p r = true := by
      by_cases h1 : r.1 = i
      · rw [if_pos h1]
        intro h2
        have := hp r.1 r.2 h2
        rwa [Prod.mk.eta] at this
      · rw [if_neg h1]
        exact id
    simp only [patchRow, List.map] at ih ⊢
    rw [List.filter_cons, List.filter_cons]
    by_cases h2 : p (if r.1 = i then (r.1, f r.2) else r) = true
    · have h3 := hg h2
      simp only [h2, h3, if_true, List.length_cons]
      exact Nat.succ_le_succ ih
    · simp only [Bool.not_eq_true] at h2
      simp only [h2, Bool.false_eq_true, if_false]
      by_cases h3 : p r = true
      · simp only [h3, if_true, List.length_cons]
        exact Nat.le_succ_of_le ih
      · simp only [Bool.not_eq_true] at h3
        simp only [h3, Bool.false_eq_true, if_false]
        exact ih

theorem selectLatest_some {α : Type} (newer : α → α → Bool) (l : List α) :
    ∀ a : α, ∃ x, selectLatest newer l (some a) = some x ∧ (x = a ∨ x ∈ l) := by
  induction l with
  | nil => exact fun a => ⟨a, rfl, Or.inl rfl⟩
  | cons r rest ih =>
    intro a
    by_cases h : newer a r = true
    · obtain ⟨x, hx, hm⟩ := ih r
      refine ⟨x, ?_, ?_⟩
      · simp [selectLatest, h, hx]
      · rcases hm with hm | hm
        · exact Or.inr (hm ▸ List.mem_cons_self r rest)
        · exact Or.inr (List.mem_cons_of_mem r hm)
    · simp only [Bool.not_eq_true] at h
      obtain ⟨x, hx, hm⟩ := ih a
      refine ⟨x, ?_, ?_⟩
      · simp [selectLatest, h, hx]
      · rcases hm with hm | hm
        · exact Or.inl hm
        · exact Or.inr (List.mem_cons_of_mem r hm)

theorem selectLatest_eq_none_iff {α : Type} (newer : α → α → Bool) (l : List α) :
    selectLatest newer l none = none ↔ l = [] := by
  cases l with
  | nil => simp [selectLatest]
  | cons r rest =>
    simp only [selectLatest]
    obtain ⟨x, hx, _⟩ := selectLatest_some newer rest r
    simp [hx]

theorem selectLatest_mem {α : Type} (newer : α → α → Bool) (l : List α) (x : α)
    (h : selectLatest newer l none = some x) : x ∈ l := by
  cases l with
  | nil => exact absurd h (by simp [selectLatest])
  | cons r rest =>
    simp only [selectLatest] at h
    obtain ⟨y, hy, hm⟩ := selectLatest_some newer rest r
    rw [hy] at h
    cases h
    rcases hm with hm | hm
    · exact hm ▸ List.mem_cons_self r rest
    · exact List.mem_cons_of_mem r hm

theorem findQueuedDesc_eq_none_iff (rows : List (Nat × QueuedMessage)) (sid : Nat) :
    findQueuedDesc rows sid = none ↔ queuedRows rows sid = [] :=
  selectLatest_eq_none_iff _ _

theorem findQueuedDesc_mem (rows : List (Nat × QueuedMessage)) (sid : Nat)
    (x : Nat × QueuedMessage) (h : findQueuedDesc rows sid = some x) :
    x ∈ queuedRows rows sid :=
  selectLatest_mem _ _ _ h

theorem findQueuedDesc_of_singleton (rows : List (Nat × QueuedMessage)) (sid : Nat)
    (x : Nat × QueuedMessage) (h : queuedRows rows sid = [x]) :
    findQueuedDesc rows sid = some x := by
  unfold findQueuedDesc
  rw [h]
  rfl

theorem queuedRows_eq_singleton (rows : List (Nat × QueuedMessage)) (sid : Nat)
    (x : Nat × QueuedMessage) (hc : (queuedRows rows sid).length ≤ 1)
    (h : findQueuedDesc rows sid = some x) : queuedRows rows sid = [x] := by
  have hm := findQueuedDesc_mem rows sid x h
  cases hq : queuedRows rows sid with
  | nil =>
    rw [hq] at hm
    exact absurd hm (List.not_mem_nil x)
  | cons y ys =>
    cases ys with
    | nil =>
      rw [hq] at hm
      simp only [List.mem_singleton] at hm
      rw [hm]
    | cons z zs =>
      rw [hq] at hc
      simp at hc

theorem queuedRows_append (rows l2 : List (Nat × QueuedMessage)) (sid : Nat) :
    queuedRows (rows ++ l2) sid = queuedRows rows sid ++ queuedRows l2 sid :=
  List.filter_append _ _

theorem queuedRows_patch_enqueue (rows : List (Nat × QueuedMessage)) (sid : Nat)
    (x : Nat × QueuedMessage) (msg : String) (ex va : Option String)
    (ep : Option Nat) (t : Nat) (h : queuedRows rows sid = [x]) :
    queuedRows
      (patchRow rows x.1 (fun m =>
        { m with message := msg, executor := ex, variant := va,
                 enqueueingProcessId := ep, queuedAt := t, updatedAt := t })) sid =
      [(x.1, { x.2 with message := msg, executor := ex, variant := va,
                        enqueueingProcessId := ep, queuedAt := t, updatedAt := t })] := by
  have hfp := filter_patchRow rows x.1
    (fun m => { m with message := msg, executor := ex, variant := va,
                       enqueueingProcessId := ep, queuedAt := t, updatedAt := t })
    (fun r => decide (r.2.sessionId = sid ∧ r.2.state = QueueState.queued))
    (fun k v => rfl)
  unfold queuedRows at h ⊢
  rw [hfp, h]
  simp

theorem enqueueFollowUp_of_singleton (db : DB) (sid : Nat) (msg : String)
    (ex va : Option String) (ep : Option Nat) (t : Nat) (x : Nat × QueuedMessage)
    (h : queuedRows db.queuedMessages sid = [x]) :
    enqueueFollowUp db sid msg ex va ep t =
      ({ db with queuedMessages := patchRow db.queuedMessages x.1 (fun m =>
          { m with message := msg, executor := ex, variant := va,
                   enqueueingProcessId := ep, queuedAt := t, updatedAt := t }) },
       { queuedMessageId := x.1, queuedAt := t, state := QueueState.queued }) := by
  unfold enqueueFollowUp
  rw [findQueuedDesc_of_singleton _ _ _ h]

theorem enqueueFollowUp_of_empty (db : DB) (sid : Nat) (msg : String)
    (ex va : Option String) (ep : Option Nat) (t : Nat)
    (h : queuedRows db.queuedMessages sid = []) :
    enqueueFollowUp db sid msg ex va ep t =
      ({ db with
          queuedMessages := db.queuedMessages ++
            [(db.nextId,
              { sessionId := sid, message := msg, executor := ex, variant := va,
                state := QueueState.queued, enqueueingProcessId := ep,
                queuedAt := t, consumedAt := none, discardedAt := none,
                createdAt := t, updatedAt := t })]
          nextId := db.nextId + 1 },
       { queuedMessageId := db.nextId, queuedAt := t, state := QueueState.queued }) := by
  unfold enqueueFollowUp
  rw [(findQueuedDesc_eq_none_iff _ _).mpr h]

theorem queuedCount_applyQueueOp (db : DB) (op : QueueOp) (sid : Nat)
    (h : queuedCount db sid ≤ 1) : queuedCount (applyQueueOp db op) sid ≤ 1 := by
  cases op with
  | enqueue sid2 msg ex va ep t =>
    simp only [applyQueueOp]
    unfold enqueueFollowUp
    cases hf : findQueuedDesc db.queuedMessages sid2 with
    | some x =>
      have hfp := filter_patchRow db.queuedMessages x.1
        (fun m => { m with message := msg, executor := ex, variant := va,
                           enqueueingProcessId := ep, queuedAt := t, updatedAt := t })
        (fun r => decide (r.2.sessionId = sid ∧ r.2.state = QueueState.queued))
        (fun k v => rfl)
      simp only [queuedCount, queuedRows] at h ⊢
      rw [hfp, List.length_map]
      exact h
    | none =>
      simp only [queuedCount] at h ⊢
      rw [queuedRows_append]
      by_cases hs : sid2 = sid
      · have h0 : queuedRows db.queuedMessages sid2 = [] :=
          (findQueuedDesc_eq_none_iff _ _).mp hf
        rw [← hs] at h ⊢
        rw [h0]
        simp [queuedRows]
      · rw [List.length_append]
        have h2 : queuedRows
            [(db.nextId,
              ({ sessionId := sid2, message := msg, executor := ex, variant := va,
                 state := QueueState.queued, enqueueingProcessId := ep,
                 queuedAt := t, consumedAt := none, discardedAt := none,
                 createdAt := t, updatedAt := t } : QueuedMessage))] sid = [] := by
          simp [queuedRows, hs]
        rw [h2]
        simpa using h
  | consume sid2 t =>
    simp only [applyQueueOp]
    unfold consumeQueuedMessage
    cases hf : findQueuedDesc db.queuedMessages sid2 with
    | none => exact h
    | some x =>
      simp only [queuedCount, queuedRows] at h ⊢
      refine Nat.le_trans (length_filter_patchRow_le _ _ _ _ ?_) h
      intro k v hkv
      simp at hkv
  | discard sid2 t =>
    simp only [applyQueueOp]
    unfold discardQueuedMessage
    cases hf : findQueuedDesc db.queuedMessages sid2 with
    | none => exact h
    | some x =>
      simp only [queuedCount, queuedRows] at h ⊢
      refine Nat.le_trans (length_filter_patchRow_le _ _ _ _ ?_) h
      intro k v hkv
      simp at hkv

theorem queuedCount_foldl (ops : List QueueOp) :
    ∀ db : DB, ∀ sid : Nat, queuedCount db sid ≤ 1 →
      queuedCount (ops.foldl applyQueueOp db) sid ≤ 1 := by
  induction ops with
  | nil => exact fun db sid h => h
  | cons op rest ih =>
    intro db sid h
    exact ih _ _ (queuedCount_applyQueueOp db op sid h)

theorem repoStateRows_append (rows l2 : List (Nat × ExecutionProcessRepoState))
    (e w : Nat) :
    repoStateRows (rows ++ l2) e w = repoStateRows rows e w ++ repoStateRows l2 e w :=
  List.filter_append _ _

theorem repoStateRows_patch_keep (rows : List (Nat × ExecutionProcessRepoState))
    (i : Nat) (f : ExecutionProcessRepoState → ExecutionProcessRepoState)
    (e w : Nat)
    (hf : ∀ r, (f r).executionProcessId = r.executionProcessId)
    (hw : ∀ r, (f r).workspaceRepoId = r.workspaceRepoId) :
    repoStateRows (patchRow rows i f) e w =
      (repoStateRows rows e w).map (fun r => if r.1 = i then (r.1, f r.2) else r) := by
  unfold repoStateRows
  apply filter_patchRow
  intro k v
  simp [hf, hw]

/-- Claim C1: a `setExecutionStatus` call on an existing execution (whose
owning session and workspace exist) sets both the owning session's status and
the owning workspace's status to the image of the requested execution status
under the mapping pending/running ↦ running, failed/killed ↦ needs_attention,
completed/dropped ↦ idle. -/
theorem setExecutionStatus_projects_mapping (db : DB) (eid : Nat)
    (st : ExecutionStatus) (em : Option String) (now : Nat)
    (p : ExecutionProcess) (s : Session) (w : Workspace)
    (hp : lookupRow db.executionProcesses eid = some p)
    (hs : lookupRow db.sessions p.sessionId = some s)
    (hw : lookupRow db.workspaces p.workspaceId = some w) :
    ∃ db' r, setExecutionStatus db eid st em now = Except.ok (db', r) ∧
      (lookupRow db'.sessions p.sessionId).map Session.status =
        some (mapExecutionToSessionStatus st) ∧
      (lookupRow db'.workspaces p.workspaceId).map Workspace.status =
        some (mapExecutionToSessionStatus st) ∧
      r.sessionStatus = mapExecutionToSessionStatus st ∧
      mapExecutionToSessionStatus ExecutionStatus.pending = SessionStatus.running ∧
      mapExecutionToSessionStatus ExecutionStatus.running = SessionStatus.running ∧
      mapExecutionToSessionStatus ExecutionStatus.failed = SessionStatus.needs_attention ∧
      mapExecutionToSessionStatus ExecutionStatus.killed = SessionStatus.needs_attention ∧
      mapExecutionToSessionStatus ExecutionStatus.completed = SessionStatus.idle ∧
      mapExecutionToSessionStatus ExecutionStatus.dropped = SessionStatus.idle := by
  unfold setExecutionStatus
  rw [hp]
  simp only [hs, hw, Option.isSome_some, Bool.and_self, if_true]
  refine ⟨_, _, rfl, ?_, ?_, rfl, by decide, by decide, by decide, by decide,
    by decide, by decide⟩
  · rw [lookupRow_patchRow_self, hs]
    rfl
  · rw [lookupRow_patchRow_self, hw]
    rfl

/-- Claim C1 witness: the theorem applied to the concrete store with a running
execution, at status failed. -/
theorem setExecutionStatus_projects_mapping_witness :
    ∃ db' r,
      setExecutionStatus dbRunning 2 ExecutionStatus.failed none 6 =
        Except.ok (db', r) ∧
      (lookupRow db'.sessions execRunningSample.sessionId).map Session.status =
        some (mapExecutionToSessionStatus ExecutionStatus.failed) ∧
      (lookupRow db'.workspaces execRunningSample.workspaceId).map Workspace.status =
        some (mapExecutionToSessionStatus ExecutionStatus.failed) ∧
      r.sessionStatus = mapExecutionToSessionStatus ExecutionStatus.failed ∧
      mapExecutionToSessionStatus ExecutionStatus.pending = SessionStatus.running ∧
      mapExecutionToSessionStatus ExecutionStatus.running = SessionStatus.running ∧
      mapExecutionToSessionStatus ExecutionStatus.failed = SessionStatus.needs_attention ∧
      mapExecutionToSessionStatus ExecutionStatus.killed = SessionStatus.needs_attention ∧
      mapExecutionToSessionStatus ExecutionStatus.completed = SessionStatus.idle ∧
      mapExecutionToSessionStatus ExecutionStatus.dropped = SessionStatus.idle :=
  setExecutionStatus_projects_mapping dbRunning 2 ExecutionStatus.failed none 6
    execRunningSample sessSample wsSample (by decide) (by decide) (by decide)

/-- Claim C2 counterexample: execution 2 of `dbTerminal` is stored in the
terminal status completed, yet a later `setExecutionStatus` call with the
non-terminal status running succeeds, moves the execution back to running and
sets the owning session's status back to running. -/
theorem setExecutionStatus_reverts_terminal_counterexample :
    (lookupRow dbTerminal.executionProcesses 2).map ExecutionProcess.status =
        some ExecutionStatus.completed ∧
    isTerminalStatus ExecutionStatus.completed = true ∧
    setExecutionStatus dbTerminal 2 ExecutionStatus.running none 5 =
      Except.ok (dbC2,
        { executionProcessId := 2, status := ExecutionStatus.running,
          sessionStatus := SessionStatus.running, updatedAt := 5 }) ∧
    (lookupRow dbC2.executionProcesses 2).map ExecutionProcess.status =
        some ExecutionStatus.running ∧
    isTerminalStatus ExecutionStatus.running = false ∧
    (lookupRow dbC2.sessions 1).map Session.status = some SessionStatus.running := by
  refine ⟨by decide, by decide, by rfl, by decide, by decide, by decide⟩

/-- Claim C2 (amended): `setExecutionStatus` overwrites the stored status with
the requested one unconditionally; in particular a call on an execution whose
stored status is terminal succeeds, installs the requested (possibly
non-terminal) status, and projects the owning session to its mapped image, so
the store itself enforces neither a single terminal transition nor
monotonicity. -/
theorem setExecutionStatus_overwrites_terminal (db : DB) (eid : Nat)
    (st : ExecutionStatus) (em : Option String) (now : Nat)
    (p : ExecutionProcess) (s : Session) (w : Workspace)
    (hp : lookupRow db.executionProcesses eid = some p)
    (hterm : isTerminalStatus p.status = true)
    (hs : lookupRow db.sessions p.sessionId = some s)
    (hw : lookupRow db.workspaces p.workspaceId = some w) :
    ∃ db' r, setExecutionStatus db eid st em now = Except.ok (db', r) ∧
      (lookupRow db'.executionProcesses eid).map ExecutionProcess.status = some st ∧
      (lookupRow db'.sessions p.sessionId).map Session.status =
        some (mapExecutionToSessionStatus st) := by
  unfold setExecutionStatus
  rw [hp]
  simp only [hs, hw, Option.isSome_some, Bool.and_self, if_true]
  refine ⟨_, _, rfl, ?_, ?_⟩
  · rw [lookupRow_patchRow_self, hp]
    rfl
  · rw [lookupRow_patchRow_self, hs]
    rfl

/-- Claim C2 (amended) witness: the amended theorem applied to the concrete
terminal store, reverting completed to running. -/
theorem setExecutionStatus_overwrites_terminal_witness :
    ∃ db' r,
      setExecutionStatus dbTerminal 2 ExecutionStatus.running none 5 =
        Except.ok (db', r) ∧
      (lookupRow db'.executionProcesses 2).map ExecutionProcess.status =
        some ExecutionStatus.running ∧
      (lookupRow db'.sessions execCompletedSample.sessionId).map Session.status =
        some (mapExecutionToSessionStatus ExecutionStatus.running) :=
  setExecutionStatus_overwrites_terminal dbTerminal 2 ExecutionStatus.running
    none 5 execCompletedSample sessSample wsSample (by decide) (by decide)
    (by decide) (by decide)

/-- Claim C3 (code bug): reporting completed on execution 2 at time 1 sets
completedAt to 1, but repeating the identical (execution, status) call at
time 2 overwrites completedAt with 2, so the second call is not a no-op on the
execution document. -/
theorem setExecutionStatus_repeat_terminal_moves_completedAt :
    setExecutionStatus dbRunning 2 ExecutionStatus.completed none 1 =
      Except.ok (dbC3a,
        { executionProcessId := 2, status := ExecutionStatus.completed,
          sessionStatus := SessionStatus.idle, updatedAt := 1 }) ∧
    (lookupRow dbC3a.executionProcesses 2).map ExecutionProcess.completedAt =
        some (some 1) ∧
    setExecutionStatus dbC3a 2 ExecutionStatus.completed none 2 =
      Except.ok (dbC3b,
        { executionProcessId := 2, status := ExecutionStatus.completed,
          sessionStatus := SessionStatus.idle, updatedAt := 2 }) ∧
    (lookupRow dbC3b.executionProcesses 2).map ExecutionProcess.completedAt =
        some (some 2) := by
  refine ⟨by rfl, by decide, by rfl, by decide⟩

/-- Claim C10: when a session has no row in state queued, both
`consumeQueuedMessage` and `discardQueuedMessage` return the empty status and
leave the store unchanged. -/
theorem consume_discard_empty_noop (db : DB) (sid now : Nat)
    (h : queuedCount db sid = 0) :
    consumeQueuedMessage db sid now = (db, QueueStatusResult.empty) ∧
    discardQueuedMessage db sid now = (db, QueueStatusResult.empty) := by
  unfold queuedCount at h
  have h0 : queuedRows db.queuedMessages sid = [] := List.length_eq_zero.mp h
  have hn : findQueuedDesc db.queuedMessages sid = none :=
    (findQueuedDesc_eq_none_iff _ _).mpr h0
  constructor
  · unfold consumeQueuedMessage
    rw [hn]
  · unfold discardQueuedMessage
    rw [hn]

/-- Claim C10 witness: the theorem applied to the empty store. -/
theorem consume_discard_empty_noop_witness :
    queuedCount dbEmpty 1 = 0 ∧
    consumeQueuedMessage dbEmpty 1 7 = (dbEmpty, QueueStatusResult.empty) ∧
    discardQueuedMessage dbEmpty 1 7 = (dbEmpty, QueueStatusResult.empty) :=
  ⟨by decide, (consume_discard_empty_noop dbEmpty 1 7 (by decide)).1,
    (consume_discard_empty_noop dbEmpty 1 7 (by decide)).2⟩

/-- Claim C9: a successful `startExecution` call sets the workspace's
activeSessionId pointer to the session the execution was started in. -/
theorem startExecution_sets_active_session (db : DB) (wid sid : Nat)
    (rr : ExecutionRunReason) (ex : Option String) (now : Nat)
    (w : Workspace) (s : Session)
    (hw : lookupRow db.workspaces wid = some w)
    (hs : lookupRow db.sessions sid = some s) :
    ∃ db' r, startExecution db wid sid rr ex now = Except.ok (db', r) ∧
      (lookupRow db'.workspaces wid).map Workspace.activeSessionId =
        some (some sid) := by
  unfold startExecution
  rw [hw, hs]
  refine ⟨_, _, rfl, ?_⟩
  rw [lookupRow_patchRow_self, hw]
  rfl

/-- Claim C9 witness: the theorem applied to a store whose workspace pointed
at a different active session (id 9) before the call. -/
theorem startExecution_sets_active_session_witness :
    (lookupRow dbOtherActive.workspaces 0).map Workspace.activeSessionId =
        some (some 9) ∧
    ∃ db' r,
      startExecution dbOtherActive 0 1 ExecutionRunReason.coding_agent none 7 =
        Except.ok (db', r) ∧
      (lookupRow db'.workspaces 0).map Workspace.activeSessionId =
        some (some 1) :=
  ⟨by decide,
    startExecution_sets_active_session dbOtherActive 0 1
      ExecutionRunReason.coding_agent none 7
      { wsSample with activeSessionId := some 9 } sessSample
      (by decide) (by decide)⟩

/-- Claim C7: `startExecution` on a missing workspace or session fails (so no
execution is created, the mutation being transactional); on an existing
workspace and session it creates an execution in status running with
queuedFollowUpConsumed false and startedAt now, and patches both the session
status and the workspace status to running. -/
theorem startExecution_creates_running_execution (db : DB) (wid sid : Nat)
    (rr : ExecutionRunReason) (ex : Option String) (now : Nat) :
    (lookupRow db.workspaces wid = none →
      startExecution db wid sid rr ex now = Except.error ("Workspace not found")) ∧
    (∀ w, lookupRow db.workspaces wid = some w →
      lookupRow db.sessions sid = none →
      startExecution db wid sid rr ex now = Except.error ("Session not found")) ∧
    (∀ w s, db.fresh = true →
      lookupRow db.workspaces wid = some w →
      lookupRow db.sessions sid = some s →
      ∃ db', startExecution db wid sid rr ex now =
          Except.ok (db', { executionProcessId := db.nextId, startedAt := now }) ∧
        lookupRow db'.executionProcesses db.nextId = some
          { workspaceId := wid, sessionId := sid, runReason := rr,
            status := ExecutionStatus.running, executor := ex,
            queuedFollowUpConsumed := false, startedAt := now,
            completedAt := none, errorMessage := none, createdAt := now,
            updatedAt := now } ∧
        (lookupRow db'.sessions sid).map Session.status =
          some SessionStatus.running ∧
        (lookupRow db'.workspaces wid).map Workspace.status =
          some SessionStatus.running) := by
  refine ⟨?_, ?_, ?_⟩
  · intro h
    unfold startExecution
    rw [h]
  · intro w hw hs
    unfold startExecution
    rw [hw, hs]
  · intro w s hfresh hw hs
    unfold startExecution
    rw [hw, hs]
    refine ⟨_, rfl, ?_, ?_, ?_⟩
    · unfold DB.fresh at hfresh
      simp only [Bool.and_eq_true] at hfresh
      obtain ⟨⟨⟨⟨⟨hW, hWR⟩, hS⟩, hE⟩, hER⟩, hQ⟩ := hfresh
      have hnone := lookupRow_eq_none_of_rowsFresh _ _ hE
      rw [lookupRow_append, hnone]
      simp [lookupRow, coalesce]
    · rw [lookupRow_patchRow_self, hs]
      rfl
    · rw [lookupRow_patchRow_self, hw]
      rfl

/-- Claim C7 witness: the success case of the theorem applied to the concrete
running store, plus the two failure cases at missing ids. -/
theorem startExecution_creates_running_execution_witness :
    (∃ db', startExecution dbRunning 0 1 ExecutionRunReason.setup none 4 =
        Except.ok (db', { executionProcessId := 3, startedAt := 4 }) ∧
      lookupRow db'.executionProcesses 3 = some
        { workspaceId := 0, sessionId := 1, runReason := ExecutionRunReason.setup,
          status := ExecutionStatus.running, executor := none,
          queuedFollowUpConsumed := false, startedAt := 4, completedAt := none,
          errorMessage := none, createdAt := 4, updatedAt := 4 } ∧
      (lookupRow db'.sessions 1).map Session.status = some SessionStatus.running ∧
      (lookupRow db'.workspaces 0).map Workspace.status = some SessionStatus.running) ∧
    startExecution dbRunning 5 1 ExecutionRunReason.setup none 4 =
      Except.error ("Workspace not found") ∧
    startExecution dbRunning 0 5 ExecutionRunReason.setup none 4 =
      Except.error ("Session not found") :=
  ⟨(startExecution_creates_running_execution dbRunning 0 1
      ExecutionRunReason.setup none 4).2.2 wsSample sessSample
      (by decide) (by decide) (by decide),
    (startExecution_creates_running_execution dbRunning 5 1
      ExecutionRunReason.setup none 4).1 (by decide),
    (startExecution_creates_running_execution dbRunning 0 5
      ExecutionRunReason.setup none 4).2.1 wsSample (by decide) (by decide)⟩

/-- Claim C4: starting from a store with no queued rows for a session, any
sequence of enqueueFollowUp, consumeQueuedMessage and discardQueuedMessage
calls leaves at most one queuedMessages row in state queued for that
session. -/
theorem at_most_one_queued_per_session (db : DB) (sid : Nat)
    (ops : List QueueOp) (h : queuedCount db sid = 0) :
    queuedCount (ops.foldl applyQueueOp db) sid ≤ 1 :=
  queuedCount_foldl ops db sid (by rw [h]; exact Nat.zero_le 1)

/-- Claim C4 witness: the theorem applied to the empty store and a concrete
sequence of five queue operations. -/
theorem at_most_one_queued_per_session_witness :
    queuedCount dbEmpty 1 = 0 ∧
    queuedCount
      (List.foldl applyQueueOp dbEmpty
        [QueueOp.enqueue 1 ("hello") none none none 1,
         QueueOp.enqueue 1 ("bye") none none none 2,
         QueueOp.consume 1 3,
         QueueOp.enqueue 1 ("again") none none none 4,
         QueueOp.discard 1 5]) 1 ≤ 1 :=
  ⟨by decide,
    at_most_one_queued_per_session dbEmpty 1
      [QueueOp.enqueue 1 ("hello") none none none 1,
       QueueOp.enqueue 1 ("bye") none none none 2,
       QueueOp.consume 1 3,
       QueueOp.enqueue 1 ("again") none none none 4,
       QueueOp.discard 1 5] (by decide)⟩

theorem head?_mem {α : Type} (l : List α) (x : α) (h : l.head? = some x) :
    x ∈ l := by
  cases l with
  | nil => exact absurd h (by simp)
  | cons a as =>
    simp only [List.head?_cons, Option.some.injEq] at h
    rw [← h]
    exact List.mem_cons_self a as

theorem insertWorkspaceRepos_spec (repos : List RepoInput) :
    ∀ (db : DB) (wid now idx : Nat),
      (insertWorkspaceRepos db wid repos now idx).1.workspaces = db.workspaces ∧
      (insertWorkspaceRepos db wid repos now idx).1.sessions = db.sessions ∧
      (insertWorkspaceRepos db wid repos now idx).1.workspaceRepos.length =
        db.workspaceRepos.length + repos.length ∧
      (insertWorkspaceRepos db wid repos now idx).1.nextId =
        db.nextId + repos.length ∧
      (insertWorkspaceRepos db wid repos now idx).2.length = repos.length ∧
      (insertWorkspaceRepos db wid repos now idx).2.head? =
        repos.head?.map (fun _ => db.nextId) := by
  induction repos with
  | nil => exact fun db wid now idx => ⟨rfl, rfl, rfl, rfl, rfl, rfl⟩
  | cons repo rest ih =>
    intro db wid now idx
    simp only [insertWorkspaceRepos]
    obtain ⟨hW, hS, hR, hN, hL, hH⟩ := ih
      { db with
          workspaceRepos := db.workspaceRepos ++
            [(db.nextId,
              { workspaceId := wid, repoId := repo.repoId,
                repoName := repo.repoName, targetBranch := repo.targetBranch,
                enabled := repo.enabled.getD true,
                sortOrder := repo.sortOrder.getD idx,
                createdAt := now, updatedAt := now })]
          nextId := db.nextId + 1 } wid now (idx + 1)
    refine ⟨hW, hS, ?_, ?_, ?_, rfl⟩
    · rw [hR]
      simp [List.length_append]
      omega
    · rw [hN]
      simp
      omega
    · simp only [List.length_cons, hL]

/-- Claim C6: `createWorkspace` with an empty repos list fails (inserting
nothing, the mutation being transactional); with a non-empty repos list of
length N it inserts exactly one workspace, N workspaceRepos rows and one
session, points the workspace's activeSessionId at the new session and its
activeWorkspaceRepoId at one of the new repos. -/
theorem createWorkspace_atomic (db : DB) (owner : String)
    (org proj : Option String) (name branch : String) (repos : List RepoInput)
    (title : Option String) (now : Nat) :
    (repos = [] →
      createWorkspace db owner org proj name branch repos title now =
        Except.error ("Workspace must include at least one repository")) ∧
    (db.fresh = true → repos ≠ [] →
      ∃ db' res,
        createWorkspace db owner org proj name branch repos title now =
          Except.ok (db', res) ∧
        db'.workspaces.length = db.workspaces.length + 1 ∧
        db'.workspaceRepos.length = db.workspaceRepos.length + repos.length ∧
        db'.sessions.length = db.sessions.length + 1 ∧
        res.workspaceRepoIds.length = repos.length ∧
        (lookupRow db'.workspaces res.workspaceId).map Workspace.activeSessionId =
          some (some res.sessionId) ∧
        (∃ rid, rid ∈ res.workspaceRepoIds ∧
          (lookupRow db'.workspaces res.workspaceId).map
              Workspace.activeWorkspaceRepoId = some (some rid)) ∧
        (lookupRow db'.sessions res.sessionId).map Session.status =
          some SessionStatus.idle) := by
  constructor
  · intro h
    subst h
    rfl
  · intro hfresh hne
    unfold DB.fresh at hfresh
    simp only [Bool.and_eq_true] at hfresh
    obtain ⟨⟨⟨⟨⟨hFW, hFWR⟩, hFS⟩, hFE⟩, hFER⟩, hFQ⟩ := hfresh
    obtain ⟨r0, rest0, rfl⟩ := List.exists_cons_of_ne_nil hne
    unfold createWorkspace
    rw [if_neg (by simp)]
    set db1 : DB :=
      { db with
          workspaces := db.workspaces ++
            [(db.nextId,
              { ownerUserId := owner, organizationId := org, projectId := proj,
                name := name, branch := branch, status := SessionStatus.idle,
                archived := false, pinned := false, activeSessionId := none,
                activeWorkspaceRepoId := none, createdAt := now,
                updatedAt := now })]
          nextId := db.nextId + 1 } with hdb1
    set I := insertWorkspaceRepos db1 db.nextId (r0 :: rest0) now 0 with hInsert
    obtain ⟨hW, hS, hR, hN, hL, hH⟩ :=
      insertWorkspaceRepos_spec (r0 :: rest0) db1 db.nextId now 0
    rw [← hInsert] at hW hS hR hN hL hH
    have hwseq : db1.workspaces = db.workspaces ++
        [(db.nextId,
          { ownerUserId := owner, organizationId := org, projectId := proj,
            name := name, branch := branch, status := SessionStatus.idle,
            archived := false, pinned := false, activeSessionId := none,
            activeWorkspaceRepoId := none, createdAt := now,
            updatedAt := now })] := by rw [hdb1]
    have hwrep : db1.workspaceRepos = db.workspaceRepos := by rw [hdb1]
    have hsess : db1.sessions = db.sessions := by rw [hdb1]
    have hN2 : I.1.nextId = db.nextId + 1 + (r0 :: rest0).length := by
      rw [hN, hdb1]
    have hH2 : I.2.head? = some (db.nextId + 1) := by
      rw [hH, hdb1]
      rfl
    refine ⟨_, _, rfl, ?_, ?_, ?_, ?_, ?_, ?_, ?_⟩
    · show (patchRow I.1.workspaces db.nextId (fun w =>
          { w with activeSessionId := some I.1.nextId,
                   activeWorkspaceRepoId := I.2.head?, updatedAt := now })).length =
        db.workspaces.length + 1
      rw [patchRow_length, hW, hwseq]
      simp [List.length_append]
    · show I.1.workspaceRepos.length =
        db.workspaceRepos.length + (r0 :: rest0).length
      rw [hR, hwrep]
    · show (I.1.sessions ++
          [(I.1.nextId,
            ({ workspaceId := db.nextId, title := title,
               status := SessionStatus.idle, lastUsedAt := now,
               createdAt := now, updatedAt := now } : Session))]).length =
        db.sessions.length + 1
      rw [List.length_append, hS, hsess]
      rfl
    · show I.2.length = (r0 :: rest0).length
      exact hL
    · show (lookupRow
          (patchRow I.1.workspaces db.nextId (fun w =>
            { w with activeSessionId := some I.1.nextId,
                     activeWorkspaceRepoId := I.2.head?, updatedAt := now }))
          db.nextId).map Workspace.activeSessionId = some (some I.1.nextId)
      rw [lookupRow_patchRow_self, hW, hwseq, lookupRow_append,
        lookupRow_eq_none_of_rowsFresh _ _ hFW]
      simp [lookupRow, coalesce]
    · refine ⟨db.nextId + 1, head?_mem _ _ hH2, ?_⟩
      show (lookupRow
          (patchRow I.1.workspaces db.nextId (fun w =>
            { w with activeSessionId := some I.1.nextId,
                     activeWorkspaceRepoId := I.2.head?, updatedAt := now }))
          db.nextId).map Workspace.activeWorkspaceRepoId =
        some (some (db.nextId + 1))
      rw [lookupRow_patchRow_self, hW, hwseq, lookupRow_append,
        lookupRow_eq_none_of_rowsFresh _ _ hFW]
      simp [lookupRow, coalesce, hH2]
    · show (lookupRow
          (I.1.sessions ++
            [(I.1.nextId,
              ({ workspaceId := db.nextId, title := title,
                 status := SessionStatus.idle, lastUsedAt := now,
                 createdAt := now, updatedAt := now } : Session))])
          I.1.nextId).map Session.status = some SessionStatus.idle
      rw [lookupRow_append, hS, hsess]
      have hn : lookupRow db.sessions I.1.nextId = none := by
        apply lookupRow_eq_none_of_rowsFresh
        apply rowsFresh_mono _ _ _ hFS
        rw [hN2]
        omega
      rw [hn]
      simp [lookupRow, coalesce]

/-- Claim C6 witness: the theorem applied to the empty store with a two-repo
list, and the failure case with the empty list. -/
theorem createWorkspace_atomic_witness :
    (createWorkspace dbEmpty ("o") none none ("w") ("main") [] none 3 =
      Except.error ("Workspace must include at least one repository")) ∧
    (∃ db' res,
      createWorkspace dbEmpty ("o") none none ("w") ("main")
          [{ repoId := ("r1"), repoName := ("app"), targetBranch := ("main"),
             enabled := none, sortOrder := none },
           { repoId := ("r2"), repoName := ("lib"), targetBranch := ("dev"),
             enabled := some false, sortOrder := some 7 }] none 3 =
        Except.ok (db', res) ∧
      db'.workspaces.length = dbEmpty.workspaces.length + 1 ∧
      db'.workspaceRepos.length = dbEmpty.workspaceRepos.length + 2 ∧
      db'.sessions.length = dbEmpty.sessions.length + 1 ∧
      res.workspaceRepoIds.length = 2 ∧
      (lookupRow db'.workspaces res.workspaceId).map Workspace.activeSessionId =
        some (some res.sessionId) ∧
      (∃ rid, rid ∈ res.workspaceRepoIds ∧
        (lookupRow db'.workspaces res.workspaceId).map
            Workspace.activeWorkspaceRepoId = some (some rid)) ∧
      (lookupRow db'.sessions res.sessionId).map Session.status =
        some SessionStatus.idle) :=
  ⟨(createWorkspace_atomic dbEmpty ("o") none none ("w") ("main") [] none 3).1 rfl,
    (createWorkspace_atomic dbEmpty ("o") none none ("w") ("main")
        [{ repoId := ("r1"), repoName := ("app"), targetBranch := ("main"),
           enabled := none, sortOrder := none },
         { repoId := ("r2"), repoName := ("lib"), targetBranch := ("dev"),
           enabled := some false, sortOrder := some 7 }] none 3).2
      (by decide) (by decide)⟩

theorem enqueue_then_status (db1 : DB) (sid : Nat) (m2 : String)
    (ex2 va2 : Option String) (ep2 : Option Nat) (t2 : Nat)
    (y : Nat × QueuedMessage) (h : queuedRows db1.queuedMessages sid = [y]) :
    queuedCount (enqueueFollowUp db1 sid m2 ex2 va2 ep2 t2).1 sid = 1 ∧
    getQueueStatus (enqueueFollowUp db1 sid m2 ex2 va2 ep2 t2).1 sid =
      QueueStatusResult.queued y.1 m2 ex2 va2 t2 ep2 := by
  have h1 := enqueueFollowUp_of_singleton db1 sid m2 ex2 va2 ep2 t2 y h
  have hq2 : queuedRows (enqueueFollowUp db1 sid m2 ex2 va2 ep2 t2).1.queuedMessages sid =
      [(y.1, { y.2 with message := m2, executor := ex2, variant := va2,
                        enqueueingProcessId := ep2, queuedAt := t2,
                        updatedAt := t2 })] := by
    rw [h1]
    exact queuedRows_patch_enqueue db1.queuedMessages sid y m2 ex2 va2 ep2 t2 h
  constructor
  · unfold queuedCount
    rw [hq2]
    rfl
  · unfold getQueueStatus
    rw [findQueuedDesc_of_singleton _ _ _ hq2]

/-- Claim C5: on a session that already has a (single) queued row,
enqueueFollowUp overwrites that row's message, executor, variant and
enqueueingProcessId and refreshes queuedAt, returning the same row id without
inserting; on a session with no queued row it inserts a new row in state
queued; consequently two successive enqueueFollowUp calls leave exactly one
queued message, whose text is the second message. -/
theorem enqueueFollowUp_overwrites (db : DB) (sid : Nat) (m1 m2 : String)
    (ex1 va1 ex2 va2 : Option String) (ep1 ep2 : Option Nat) (t1 t2 : Nat) :
    (∀ x, queuedCount db sid ≤ 1 →
      findQueuedDesc db.queuedMessages sid = some x →
      (enqueueFollowUp db sid m1 ex1 va1 ep1 t1).2 =
        { queuedMessageId := x.1, queuedAt := t1, state := QueueState.queued } ∧
      (enqueueFollowUp db sid m1 ex1 va1 ep1 t1).1.queuedMessages.length =
        db.queuedMessages.length ∧
      (enqueueFollowUp db sid m1 ex1 va1 ep1 t1).1.nextId = db.nextId ∧
      queuedRows (enqueueFollowUp db sid m1 ex1 va1 ep1 t1).1.queuedMessages sid =
        [(x.1, { x.2 with message := m1, executor := ex1, variant := va1,
                          enqueueingProcessId := ep1, queuedAt := t1,
                          updatedAt := t1 })]) ∧
    (findQueuedDesc db.queuedMessages sid = none →
      (enqueueFollowUp db sid m1 ex1 va1 ep1 t1).1.queuedMessages =
        db.queuedMessages ++
          [(db.nextId,
            { sessionId := sid, message := m1, executor := ex1, variant := va1,
              state := QueueState.queued, enqueueingProcessId := ep1,
              queuedAt := t1, consumedAt := none, discardedAt := none,
              createdAt := t1, updatedAt := t1 })] ∧
      (enqueueFollowUp db sid m1 ex1 va1 ep1 t1).2 =
        { queuedMessageId := db.nextId, queuedAt := t1,
          state := QueueState.queued }) ∧
    (queuedCount db sid ≤ 1 →
      queuedCount
        (enqueueFollowUp (enqueueFollowUp db sid m1 ex1 va1 ep1 t1).1
          sid m2 ex2 va2 ep2 t2).1 sid = 1 ∧
      ∃ qid, getQueueStatus
          (enqueueFollowUp (enqueueFollowUp db sid m1 ex1 va1 ep1 t1).1
            sid m2 ex2 va2 ep2 t2).1 sid =
        QueueStatusResult.queued qid m2 ex2 va2 t2 ep2) := by
  refine ⟨?_, ?_, ?_⟩
  · intro x hc hf
    unfold queuedCount at hc
    have hsing := queuedRows_eq_singleton _ _ _ hc hf
    rw [enqueueFollowUp_of_singleton db sid m1 ex1 va1 ep1 t1 x hsing]
    refine ⟨rfl, ?_, rfl, ?_⟩
    · exact patchRow_length db.queuedMessages x.1 (fun m =>
        { m with message := m1, executor := ex1, variant := va1,
                 enqueueingProcessId := ep1, queuedAt := t1, updatedAt := t1 })
    · exact queuedRows_patch_enqueue db.queuedMessages sid x m1 ex1 va1 ep1 t1 hsing
  · intro hf
    have he : queuedRows db.queuedMessages sid = [] :=
      (findQueuedDesc_eq_none_iff _ _).mp hf
    rw [enqueueFollowUp_of_empty db sid m1 ex1 va1 ep1 t1 he]
    exact ⟨rfl, rfl⟩
  · intro hc
    unfold queuedCount at hc
    cases hf : findQueuedDesc db.queuedMessages sid with
    | none =>
      have he : queuedRows db.queuedMessages sid = [] :=
        (findQueuedDesc_eq_none_iff _ _).mp hf
      have h1 := enqueueFollowUp_of_empty db sid m1 ex1 va1 ep1 t1 he
      have hq1 : queuedRows (enqueueFollowUp db sid m1 ex1 va1 ep1 t1).1.queuedMessages sid =
          [(db.nextId,
            { sessionId := sid, message := m1, executor := ex1, variant := va1,
              state := QueueState.queued, enqueueingProcessId := ep1,
              queuedAt := t1, consumedAt := none, discardedAt := none,
              createdAt := t1, updatedAt := t1 })] := by
        rw [h1]
        show queuedRows (db.queuedMessages ++
          [(db.nextId,
            { sessionId := sid, message := m1, executor := ex1, variant := va1,
              state := QueueState.queued, enqueueingProcessId := ep1,
              queuedAt := t1, consumedAt := none, discardedAt := none,
              createdAt := t1, updatedAt := t1 })]) sid = _
        rw [queuedRows_append, he]
        simp [queuedRows]
      obtain ⟨hcount, hstatus⟩ :=
        enqueue_then_status (enqueueFollowUp db sid m1 ex1 va1 ep1 t1).1
          sid m2 ex2 va2 ep2 t2 _ hq1
      exact ⟨hcount, db.nextId, hstatus⟩
    | some x =>
      have hsing := queuedRows_eq_singleton _ _ _ hc hf
      have h1 := enqueueFollowUp_of_singleton db sid m1 ex1 va1 ep1 t1 x hsing
      have hq1 : queuedRows (enqueueFollowUp db sid m1 ex1 va1 ep1 t1).1.queuedMessages sid =
          [(x.1, { x.2 with message := m1, executor := ex1, variant := va1,
                            enqueueingProcessId := ep1, queuedAt := t1,
                            updatedAt := t1 })] := by
        rw [h1]
        exact queuedRows_patch_enqueue db.queuedMessages sid x m1 ex1 va1 ep1 t1 hsing
      obtain ⟨hcount, hstatus⟩ :=
        enqueue_then_status (enqueueFollowUp db sid m1 ex1 va1 ep1 t1).1
          sid m2 ex2 va2 ep2 t2 _ hq1
      exact ⟨hcount, x.1, hstatus⟩

/-- Claim C5 witness: the theorem's overwrite part and two-enqueue consequence
applied to a concrete store with one queued row. -/
theorem enqueueFollowUp_overwrites_witness :
    ((enqueueFollowUp dbQueued 1 ("m1") none none none 6).2 =
        { queuedMessageId := 4, queuedAt := 6, state := QueueState.queued } ∧
      (enqueueFollowUp dbQueued 1 ("m1") none none none 6).1.queuedMessages.length =
        dbQueued.queuedMessages.length ∧
      (enqueueFollowUp dbQueued 1 ("m1") none none none 6).1.nextId = dbQueued.nextId ∧
      queuedRows (enqueueFollowUp dbQueued 1 ("m1") none none none 6).1.queuedMessages 1 =
        [(4, { queuedMsgSample with
                message := ("m1"), executor := none, variant := none,
                enqueueingProcessId := none, queuedAt := 6,
                updatedAt := 6 })]) ∧
    (queuedCount
        (enqueueFollowUp (enqueueFollowUp dbQueued 1 ("m1") none none none 6).1
          1 ("m2") none none none 7).1 1 = 1 ∧
      ∃ qid, getQueueStatus
          (enqueueFollowUp (enqueueFollowUp dbQueued 1 ("m1") none none none 6).1
            1 ("m2") none none none 7).1 1 =
        QueueStatusResult.queued qid ("m2") none none 7 none) :=
  ⟨(enqueueFollowUp_overwrites dbQueued 1 ("m1") ("m2") none none none none
      none none 6 7).1 (4, queuedMsgSample) (by decide) (by decide),
    (enqueueFollowUp_overwrites dbQueued 1 ("m1") ("m2") none none none none
      none none 6 7).2.2 (by decide)⟩

theorem repoStateRows_patch_upsert (rows : List (Nat × ExecutionProcessRepoState))
    (eid wrid : Nat) (b a s : Option String) (now : Nat)
    (x : Nat × ExecutionProcessRepoState)
    (h : repoStateRows rows eid wrid = [x]) :
    repoStateRows (patchRow rows x.1 (fun r =>
      { r with beforeHeadCommit := coalesce b x.2.beforeHeadCommit,
               afterHeadCommit := coalesce a x.2.afterHeadCommit,
               repoState := coalesce s x.2.repoState,
               updatedAt := now })) eid wrid =
      [(x.1,
        { x.2 with beforeHeadCommit := coalesce b x.2.beforeHeadCommit,
                   afterHeadCommit := coalesce a x.2.afterHeadCommit,
                   repoState := coalesce s x.2.repoState,
                   updatedAt := now })] := by
  have hfp := repoStateRows_patch_keep rows x.1
    (fun r =>
      { r with beforeHeadCommit := coalesce b x.2.beforeHeadCommit,
               afterHeadCommit := coalesce a x.2.afterHeadCommit,
               repoState := coalesce s x.2.repoState,
               updatedAt := now }) eid wrid (fun r => rfl) (fun r => rfl)
  rw [hfp, h]
  simp

theorem upsert_second_call (db1 : DB) (eid wrid : Nat) (b a s : Option String)
    (now2 : Nat) (i : Nat) (v : ExecutionProcessRepoState)
    (h : repoStateRows db1.executionProcessRepoStates eid wrid = [(i, v)])
    (hb : coalesce b v.beforeHeadCommit = v.beforeHeadCommit)
    (ha : coalesce a v.afterHeadCommit = v.afterHeadCommit)
    (hs : coalesce s v.repoState = v.repoState) :
    ∃ db2 r2,
      upsertExecutionRepoState db1 eid wrid b a s now2 = Except.ok (db2, r2) ∧
      r2.executionProcessRepoStateId = i ∧
      (repoStateRows db2.executionProcessRepoStates eid wrid).map
          (fun r => (r.2.beforeHeadCommit, r.2.afterHeadCommit, r.2.repoState)) =
        (repoStateRows db1.executionProcessRepoStates eid wrid).map
          (fun r => (r.2.beforeHeadCommit, r.2.afterHeadCommit, r.2.repoState)) := by
  unfold upsertExecutionRepoState
  rw [h]
  refine ⟨_, _, rfl, rfl, ?_⟩
  have h2 := repoStateRows_patch_upsert db1.executionProcessRepoStates
    eid wrid b a s now2 (i, v) h
  rw [h2]
  simp [hb, ha, hs]

/-- Claim C8: upsertExecutionRepoState keeps at most one row per
(execution, workspaceRepo) pair (and does not disturb other pairs), a call
with omitted optional fields keeps the previously stored values of those
fields, and repeating a call with identical arguments leaves the stored
beforeHeadCommit, afterHeadCommit and repoState unchanged. -/
theorem upsertExecutionRepoState_unique_partial_idempotent (db : DB)
    (eid wrid : Nat) (b a s : Option String) (now1 now2 : Nat)
    (hpair : pairCount db eid wrid ≤ 1) :
    ∃ db1 r1,
      upsertExecutionRepoState db eid wrid b a s now1 = Except.ok (db1, r1) ∧
      pairCount db1 eid wrid = 1 ∧
      (∀ e' w', ¬(e' = eid ∧ w' = wrid) →
        pairCount db1 e' w' = pairCount db e' w') ∧
      (∀ x, repoStateRows db.executionProcessRepoStates eid wrid = [x] →
        repoStateRows db1.executionProcessRepoStates eid wrid =
          [(x.1,
            { x.2 with beforeHeadCommit := coalesce b x.2.beforeHeadCommit,
                       afterHeadCommit := coalesce a x.2.afterHeadCommit,
                       repoState := coalesce s x.2.repoState,
                       updatedAt := now1 })]) ∧
      ∃ db2 r2,
        upsertExecutionRepoState db1 eid wrid b a s now2 = Except.ok (db2, r2) ∧
        r2.executionProcessRepoStateId = r1.executionProcessRepoStateId ∧
        (repoStateRows db2.executionProcessRepoStates eid wrid).map
            (fun r => (r.2.beforeHeadCommit, r.2.afterHeadCommit, r.2.repoState)) =
          (repoStateRows db1.executionProcessRepoStates eid wrid).map
            (fun r => (r.2.beforeHeadCommit, r.2.afterHeadCommit, r.2.repoState)) := by
  unfold pairCount at hpair
  cases hR : repoStateRows db.executionProcessRepoStates eid wrid with
  | nil =>
    have h1 : repoStateRows
        (db.executionProcessRepoStates ++
          [(db.nextId,
            { executionProcessId := eid, workspaceRepoId := wrid,
              beforeHeadCommit := b, afterHeadCommit := a, repoState := s,
              createdAt := now1, updatedAt := now1 })]) eid wrid =
        [(db.nextId,
          { executionProcessId := eid, workspaceRepoId := wrid,
            beforeHeadCommit := b, afterHeadCommit := a, repoState := s,
            createdAt := now1, updatedAt := now1 })] := by
      rw [repoStateRows_append, hR]
      simp [repoStateRows]
    unfold upsertExecutionRepoState
    rw [hR]
    refine ⟨_, _, rfl, ?_, ?_, ?_, ?_⟩
    · show (repoStateRows
          (db.executionProcessRepoStates ++
            [(db.nextId,
              { executionProcessId := eid, workspaceRepoId := wrid,
                beforeHeadCommit := b, afterHeadCommit := a, repoState := s,
                createdAt := now1, updatedAt := now1 })]) eid wrid).length = 1
      rw [h1]
      rfl
    · intro e' w' hne
      show (repoStateRows
          (db.executionProcessRepoStates ++
            [(db.nextId,
              { executionProcessId := eid, workspaceRepoId := wrid,
                beforeHeadCommit := b, afterHeadCommit := a, repoState := s,
                createdAt := now1, updatedAt := now1 })]) e' w').length =
        pairCount db e' w'
      rw [repoStateRows_append]
      have hd : decide (eid = e' ∧ wrid = w') = false := by
        simp only [decide_eq_false_iff_not]
        intro hcc
        exact hne ⟨hcc.1.symm, hcc.2.symm⟩
      have hnew : repoStateRows
          [(db.nextId,
            ({ executionProcessId := eid, workspaceRepoId := wrid,
               beforeHeadCommit := b, afterHeadCommit := a, repoState := s,
               createdAt := now1, updatedAt := now1 } : ExecutionProcessRepoState))]
          e' w' = [] := by
        simp only [repoStateRows, List.filter, hd]
      rw [hnew]
      simp [pairCount]
    · intro x hx
      exact absurd hx (by simp)
    · have h1cast : repoStateRows
          ({ db with
              executionProcessRepoStates := db.executionProcessRepoStates ++
                [(db.nextId,
                  { executionProcessId := eid, workspaceRepoId := wrid,
                    beforeHeadCommit := b, afterHeadCommit := a, repoState := s,
                    createdAt := now1, updatedAt := now1 })]
              nextId := db.nextId + 1 } : DB).executionProcessRepoStates eid wrid =
          [(db.nextId,
            { executionProcessId := eid, workspaceRepoId := wrid,
              beforeHeadCommit := b, afterHeadCommit := a, repoState := s,
              createdAt := now1, updatedAt := now1 })] := h1
      have hb : coalesce b
          ({ executionProcessId := eid, workspaceRepoId := wrid,
             beforeHeadCommit := b, afterHeadCommit := a, repoState := s,
             createdAt := now1, updatedAt := now1 } : ExecutionProcessRepoState).beforeHeadCommit =
          ({ executionProcessId := eid, workspaceRepoId := wrid,
             beforeHeadCommit := b, afterHeadCommit := a, repoState := s,
             createdAt := now1, updatedAt := now1 } : ExecutionProcessRepoState).beforeHeadCommit :=
        coalesce_self b
      have ha : coalesce a
          ({ executionProcessId := eid, workspaceRepoId := wrid,
             beforeHeadCommit := b, afterHeadCommit := a, repoState := s,
             createdAt := now1, updatedAt := now1 } : ExecutionProcessRepoState).afterHeadCommit =
          ({ executionProcessId := eid, workspaceRepoId := wrid,
             beforeHeadCommit := b, afterHeadCommit := a, repoState := s,
             createdAt := now1, updatedAt := now1 } : ExecutionProcessRepoState).afterHeadCommit :=
        coalesce_self a
      have hsr : coalesce s
          ({ executionProcessId := eid, workspaceRepoId := wrid,
             beforeHeadCommit := b, afterHeadCommit := a, repoState := s,
             createdAt := now1, updatedAt := now1 } : ExecutionProcessRepoState).repoState =
          ({ executionProcessId := eid, workspaceRepoId := wrid,
             beforeHeadCommit := b, afterHeadCommit := a, repoState := s,
             createdAt := now1, updatedAt := now1 } : ExecutionProcessRepoState).repoState :=
        coalesce_self s
      exact upsert_second_call _ eid wrid b a s now2 db.nextId _ h1cast hb ha hsr
  | cons x tail =>
    cases tail with
    | cons y tail2 =>
      rw [hR] at hpair
      simp at hpair
    | nil =>
      have h1 := repoStateRows_patch_upsert db.executionProcessRepoStates
        eid wrid b a s now1 x hR
      unfold upsertExecutionRepoState
      rw [hR]
      refine ⟨_, _, rfl, ?_, ?_, ?_, ?_⟩
      · show (repoStateRows (patchRow db.executionProcessRepoStates x.1 (fun r =>
            { r with beforeHeadCommit := coalesce b x.2.beforeHeadCommit,
                     afterHeadCommit := coalesce a x.2.afterHeadCommit,
                     repoState := coalesce s x.2.repoState,
                     updatedAt := now1 })) eid wrid).length = 1
        rw [h1]
        rfl
      · intro e' w' hne
        show (repoStateRows (patchRow db.executionProcessRepoStates x.1 (fun r =>
            { r with beforeHeadCommit := coalesce b x.2.beforeHeadCommit,
                     afterHeadCommit := coalesce a x.2.afterHeadCommit,
                     repoState := coalesce s x.2.repoState,
                     updatedAt := now1 })) e' w').length = pairCount db e' w'
        have hfp := repoStateRows_patch_keep db.executionProcessRepoStates x.1
          (fun r =>
            { r with beforeHeadCommit := coalesce b x.2.beforeHeadCommit,
                     afterHeadCommit := coalesce a x.2.afterHeadCommit,
                     repoState := coalesce s x.2.repoState,
                     updatedAt := now1 }) e' w' (fun r => rfl) (fun r => rfl)
        rw [hfp, List.length_map]
        rfl
      · intro x' hx'
        have hxx : x = x' := by simpa using hx'
        subst hxx
        exact h1
      · have h1cast : repoStateRows
            ({ db with
                executionProcessRepoStates :=
                  patchRow db.executionProcessRepoStates x.1 (fun r =>
                    { r with beforeHeadCommit := coalesce b x.2.beforeHeadCommit,
                             afterHeadCommit := coalesce a x.2.afterHeadCommit,
                             repoState := coalesce s x.2.repoState,
                             updatedAt := now1 }) } : DB).executionProcessRepoStates
            eid wrid =
            [(x.1,
              { x.2 with beforeHeadCommit := coalesce b x.2.beforeHeadCommit,
                         afterHeadCommit := coalesce a x.2.afterHeadCommit,
                         repoState := coalesce s x.2.repoState,
                         updatedAt := now1 })] := h1
        have hb : coalesce b
            ({ x.2 with beforeHeadCommit := coalesce b x.2.beforeHeadCommit,
                        afterHeadCommit := coalesce a x.2.afterHeadCommit,
                        repoState := coalesce s x.2.repoState,
                        updatedAt := now1 }).beforeHeadCommit =
            ({ x.2 with beforeHeadCommit := coalesce b x.2.beforeHeadCommit,
                        afterHeadCommit := coalesce a x.2.afterHeadCommit,
                        repoState := coalesce s x.2.repoState,
                        updatedAt := now1 }).beforeHeadCommit :=
          coalesce_idem b x.2.beforeHeadCommit
        have ha : coalesce a
            ({ x.2 with beforeHeadCommit := coalesce b x.2.beforeHeadCommit,
                        afterHeadCommit := coalesce a x.2.afterHeadCommit,
                        repoState := coalesce s x.2.repoState,
                        updatedAt := now1 }).afterHeadCommit =
            ({ x.2 with beforeHeadCommit := coalesce b x.2.beforeHeadCommit,
                        afterHeadCommit := coalesce a x.2.afterHeadCommit,
                        repoState := coalesce s x.2.repoState,
                        updatedAt := now1 }).afterHeadCommit :=
          coalesce_idem a x.2.afterHeadCommit
        have hsr : coalesce s
            ({ x.2 with beforeHeadCommit := coalesce b x.2.beforeHeadCommit,
                        afterHeadCommit := coalesce a x.2.afterHeadCommit,
                        repoState := coalesce s x.2.repoState,
                        updatedAt := now1 }).repoState =
            ({ x.2 with beforeHeadCommit := coalesce b x.2.beforeHeadCommit,
                        afterHeadCommit := coalesce a x.2.afterHeadCommit,
                        repoState := coalesce s x.2.repoState,
                        updatedAt := now1 }).repoState :=
          coalesce_idem s x.2.repoState
        exact upsert_second_call _ eid wrid b a s now2 x.1 _ h1cast hb ha hsr

/-- Claim C8 witness: the theorem applied to the concrete store with one
stored row for the pair, calling with beforeHeadCommit omitted. -/
theorem upsertExecutionRepoState_unique_partial_idempotent_witness :
    ∃ db1 r1,
      upsertExecutionRepoState dbRepoState 2 3 none (some ("bbb")) none 8 =
        Except.ok (db1, r1) ∧
      pairCount db1 2 3 = 1 ∧
      (∀ e' w', ¬(e' = 2 ∧ w' = 3) →
        pairCount db1 e' w' = pairCount dbRepoState e' w') ∧
      (∀ x, repoStateRows dbRepoState.executionProcessRepoStates 2 3 = [x] →
        repoStateRows db1.executionProcessRepoStates 2 3 =
          [(x.1,
            { x.2 with beforeHeadCommit := coalesce none x.2.beforeHeadCommit,
                       afterHeadCommit := coalesce (some ("bbb")) x.2.afterHeadCommit,
                       repoState := coalesce none x.2.repoState,
                       updatedAt := 8 })]) ∧
      ∃ db2 r2,
        upsertExecutionRepoState db1 2 3 none (some ("bbb")) none 9 =
          Except.ok (db2, r2) ∧
        r2.executionProcessRepoStateId = r1.executionProcessRepoStateId ∧
        (repoStateRows db2.executionProcessRepoStates 2 3).map
            (fun r => (r.2.beforeHeadCommit, r.2.afterHeadCommit, r.2.repoState)) =
          (repoStateRows db1.executionProcessRepoStates 2 3).map
            (fun r => (r.2.beforeHeadCommit, r.2.afterHeadCommit, r.2.repoState)) :=
  upsertExecutionRepoState_unique_partial_idempotent dbRepoState 2 3 none
    (some ("bbb")) none 8 9 (by decide)
